import Mathlib

/-!
Shallow embedding of the klukoo-ai HTTP service (src/index.js).

The service consists of three Express request handlers (POST /forecast,
POST /predict, POST /summarize) that validate a JSON request body, call an
external completion provider, and shape the response. We embed the JavaScript
value and number semantics the handlers rely on (falsiness, ToNumber
coercion, NaN propagation, parseFloat, JSON.parse, Math.min/max/floor) and
model each handler as a pure function of its request fields, the provider
outcome, the random draw and the current time. The provider itself is opaque:
it is an input (Except Unit String), and each result records how many
provider calls were issued.

JavaScript numbers are IEEE binary64; we model them as exact rationals plus
the two infinities and NaN. Rounding and overflow of doubles are not modelled;
every property proved below depends only on ordering, clamping and NaN
propagation, which agree with the IEEE semantics on the values involved.
-/

/-- A JavaScript number: finite (modelled exactly as a rational), an
infinity, or NaN. -/
inductive JSNum where
  | nan
  | posInf
  | negInf
  | fin (q : ℚ)
deriving DecidableEq

/-- JavaScript addition on numbers (NaN propagates, opposite infinities
give NaN). -/
def jsNumAdd : JSNum → JSNum → JSNum
  | .nan, _ => .nan
  | _, .nan => .nan
  | .posInf, .negInf => .nan
  | .negInf, .posInf => .nan
  | .posInf, _ => .posInf
  | _, .posInf => .posInf
  | .negInf, _ => .negInf
  | _, .negInf => .negInf
  | .fin a, .fin b => .fin (a + b)

/-- JavaScript unary minus on numbers. -/
def jsNumNeg : JSNum → JSNum
  | .nan => .nan
  | .posInf => .negInf
  | .negInf => .posInf
  | .fin q => .fin (-q)

/-- JavaScript subtraction on numbers. -/
def jsNumSub (a b : JSNum) : JSNum := jsNumAdd a (jsNumNeg b)

/-- JavaScript multiplication on numbers (infinity times zero is NaN). -/
def jsNumMul : JSNum → JSNum → JSNum
  | .nan, _ => .nan
  | _, .nan => .nan
  | .posInf, .posInf => .posInf
  | .posInf, .negInf => .negInf
  | .negInf, .posInf => .negInf
  | .negInf, .negInf => .posInf
  | .posInf, .fin q => if q = 0 then .nan else if 0 < q then .posInf else .negInf
  | .fin q, .posInf => if q = 0 then .nan else if 0 < q then .posInf else .negInf
  | .negInf, .fin q => if q = 0 then .nan else if 0 < q then .negInf else .posInf
  | .fin q, .negInf => if q = 0 then .nan else if 0 < q then .negInf else .posInf
  | .fin a, .fin b => .fin (a * b)

/-- JavaScript strict less-than on numbers: false whenever either side is
NaN. -/
def jsNumLt : JSNum → JSNum → Bool
  | .nan, _ => false
  | _, .nan => false
  | .posInf, _ => false
  | .negInf, .negInf => false
  | .negInf, _ => true
  | .fin _, .negInf => false
  | .fin _, .posInf => true
  | .fin a, .fin b => decide (a < b)

/-- Math.min on two numbers: NaN if either argument is NaN. -/
def jsNumMin (a b : JSNum) : JSNum :=
  if a = JSNum.nan ∨ b = JSNum.nan then .nan
  else if jsNumLt a b then a else b

/-- Math.max on two numbers: NaN if either argument is NaN. -/
def jsNumMax (a b : JSNum) : JSNum :=
  if a = JSNum.nan ∨ b = JSNum.nan then .nan
  else if jsNumLt a b then b else a

/-- Math.floor on a number. -/
def jsNumFloor : JSNum → JSNum
  | .nan => .nan
  | .posInf => .posInf
  | .negInf => .negInf
  | .fin q => .fin (⌊q⌋ : ℤ)

/-- Decimal digits of the fractional part of a nonnegative rational, with
fuel. The JavaScript Number-to-String algorithm prints the shortest decimal
that round-trips through binary64; on the rationals with a terminating
decimal expansion that arise here the two agree, and the function is only a
best effort elsewhere (no claim depends on it). -/
def fracDigits : Nat → ℚ → String
  | 0, _ => ""
  | Nat.succ fuel, f =>
    if f = 0 then ""
    else
      let f10 := f * 10
      let d := (⌊f10⌋ : ℤ).toNat
      Nat.repr d ++ fracDigits fuel (f10 - (d : ℚ))

/-- Decimal string of a nonnegative rational. -/
def ratToStringNN (q : ℚ) : String :=
  let ip := (⌊q⌋ : ℤ).toNat
  let fr := q - (ip : ℚ)
  if fr = 0 then Nat.repr ip else Nat.repr ip ++ "." ++ fracDigits 100 fr

/-- Decimal string of a rational. -/
def ratToString (q : ℚ) : String :=
  if q < 0 then "-" ++ ratToStringNN (-q) else ratToStringNN q

/-- JavaScript Number-to-String. -/
def jsNumToString : JSNum → String
  | .nan => "NaN"
  | .posInf => "Infinity"
  | .negInf => "-Infinity"
  | .fin q => ratToString q

/-- Does the character list start with the given pattern. -/
def listStartsWith : List Char → List Char → Bool
  | _, [] => true
  | [], _ :: _ => false
  | c :: cs, p :: ps => c = p && listStartsWith cs ps

/-- Does the character list contain the given pattern as a contiguous run
(the semantics of String.prototype.includes). -/
def listContainsSub : List Char → List Char → Bool
  | [], p => p.isEmpty
  | c :: rest, p => listStartsWith (c :: rest) p || listContainsSub rest p

/-- String.prototype.includes. -/
def strContains (s pat : String) : Bool :=
  listContainsSub s.toList pat.toList

/-- String.prototype.toLowerCase (ASCII-faithful, which covers every
substring the handlers match on). -/
def jsToLower (s : String) : String := String.mk (s.toList.map Char.toLower)

/-- JavaScript whitespace recognised by String.prototype.trim, parseFloat
and ToNumber. -/
def isJsWs (c : Char) : Bool :=
  [9, 10, 11, 12, 13, 32, 160, 0x2028, 0x2029, 0xFEFF].contains c.toNat

/-- Drop leading JavaScript whitespace. -/
def trimLeadChars (cs : List Char) : List Char := cs.dropWhile isJsWs

/-- Drop leading and trailing JavaScript whitespace. -/
def trimChars (cs : List Char) : List Char :=
  ((cs.dropWhile isJsWs).reverse.dropWhile isJsWs).reverse

/-- String.prototype.trim. -/
def jsTrim (s : String) : String := String.mk (trimChars s.toList)

/-- A JavaScript value as the handlers see it: a number, string, boolean,
null, undefined, array or plain object. Request-body fields parsed from JSON
and the values produced by JSON.parse live here; undefined models an absent
field. -/
inductive JSVal where
  | num (n : JSNum)
  | str (s : String)
  | bool (b : Bool)
  | null
  | undefined
  | arr (xs : List JSVal)
  | obj (fields : List (String × JSVal))

mutual

/-- JavaScript ToString on values (arrays join their elements with commas,
with null and undefined elements printed as empty; plain objects print as
[object Object]). -/
def jsValToString : JSVal → String
  | .num n => jsNumToString n
  | .str s => s
  | .bool b => if b then "true" else "false"
  | .null => "null"
  | .undefined => "undefined"
  | .arr xs => String.intercalate "," (jsArrElemStrings xs)
  | .obj _ => "[object Object]"

/-- Element strings used by Array.prototype.join. -/
def jsArrElemStrings : List JSVal → List String
  | [] => []
  | .null :: rest => "" :: jsArrElemStrings rest
  | .undefined :: rest => "" :: jsArrElemStrings rest
  | x :: rest => jsValToString x :: jsArrElemStrings rest

end

/-- Leading decimal digits of a character list, and the rest. -/
def takeDigits (cs : List Char) : List Char × List Char :=
  (cs.takeWhile Char.isDigit, cs.dropWhile Char.isDigit)

/-- Value of a list of decimal digits. -/
def digitsToNat (ds : List Char) : Nat :=
  ds.foldl (fun n c => n * 10 + (c.toNat - 48)) 0

/-- Parse an unsigned decimal literal (digits, optional fraction, optional
exponent) from the front of a character list, returning its value and the
unconsumed rest. The exponent marker is consumed only when followed by at
least one digit, as in the ECMAScript grammar. -/
def parseDecCore (cs : List Char) : Option (ℚ × List Char) :=
  let p1 := takeDigits cs
  let afterInt := p1.2
  let p2 : List Char × List Char :=
    match afterInt with
    | c :: rest => if c = '.' then takeDigits rest else ([], afterInt)
    | [] => ([], afterInt)
  let ds1 := p1.1
  let ds2 := p2.1
  let r2 := p2.2
  if ds1.isEmpty && ds2.isEmpty then none
  else
    let mant : ℚ := (digitsToNat ds1 : ℚ) + (digitsToNat ds2 : ℚ) / ((10 : ℚ) ^ ds2.length)
    match r2 with
    | c :: rest =>
      if c = 'e' ∨ c = 'E' then
        let sp : Bool × List Char :=
          match rest with
          | s :: r3 => if s = '+' then (false, r3) else if s = '-' then (true, r3) else (false, rest)
          | [] => (false, rest)
        let p3 := takeDigits sp.2
        if p3.1.isEmpty then some (mant, r2)
        else
          let e := digitsToNat p3.1
          let v := if sp.1 then mant / (10 : ℚ) ^ e else mant * (10 : ℚ) ^ e
          some (v, p3.2)
      else some (mant, r2)
    | [] => some (mant, r2)

/-- Value of a hexadecimal digit. -/
def hexVal (c : Char) : Option Nat :=
  if c.isDigit then some (c.toNat - 48)
  else if 'a' ≤ c ∧ c ≤ 'f' then some (c.toNat - 87)
  else if 'A' ≤ c ∧ c ≤ 'F' then some (c.toNat - 55)
  else none

/-- Value of a nonempty digit string in the given base, none when any
character is out of range or the string is empty. -/
def digitsBase (b : Nat) (cs : List Char) : Option Nat :=
  match cs with
  | [] => none
  | _ =>
    cs.foldl
      (fun acc c =>
        match acc, hexVal c with
        | some n, some d => if d < b then some (n * b + d) else none
        | _, _ => none)
      (some 0)

/-- JavaScript ToNumber on a string: trim, empty gives 0, recognises signed
Infinity, unsigned radix literals, and full-match decimal literals; anything
else is NaN. -/
def strToNumber (s : String) : JSNum :=
  let cs := trimChars s.toList
  match cs with
  | [] => .fin 0
  | '0' :: 'x' :: rest => match digitsBase 16 rest with | some n => .fin n | none => .nan
  | '0' :: 'X' :: rest => match digitsBase 16 rest with | some n => .fin n | none => .nan
  | '0' :: 'o' :: rest => match digitsBase 8 rest with | some n => .fin n | none => .nan
  | '0' :: 'O' :: rest => match digitsBase 8 rest with | some n => .fin n | none => .nan
  | '0' :: 'b' :: rest => match digitsBase 2 rest with | some n => .fin n | none => .nan
  | '0' :: 'B' :: rest => match digitsBase 2 rest with | some n => .fin n | none => .nan
  | _ =>
    let sp : Bool × List Char :=
      match cs with
      | c :: rest => if c = '+' then (false, rest) else if c = '-' then (true, rest) else (false, cs)
      | [] => (false, cs)
    if sp.2 = "Infinity".toList then (if sp.1 then .negInf else .posInf)
    else
      match parseDecCore sp.2 with
      | some (q, []) => .fin (if sp.1 then -q else q)
      | _ => .nan

/-- JavaScript ToNumber on a value. Arrays convert through their joined
string form; plain objects convert through the string [object Object] and so
give NaN. -/
def toNumber : JSVal → JSNum
  | .num n => n
  | .str s => strToNumber s
  | .bool b => .fin (if b then 1 else 0)
  | .null => .fin 0
  | .undefined => .nan
  | .arr xs => strToNumber (jsValToString (.arr xs))
  | .obj fs => strToNumber (jsValToString (.obj fs))

/-- JavaScript parseFloat: skip leading whitespace, then take the longest
valid signed decimal (or Infinity) literal as a prefix; NaN if there is
none. -/
def jsParseFloat (s : String) : JSNum :=
  let cs := trimLeadChars s.toList
  let sp : Bool × List Char :=
    match cs with
    | c :: rest => if c = '+' then (false, rest) else if c = '-' then (true, rest) else (false, cs)
    | [] => (false, cs)
  if listStartsWith sp.2 "Infinity".toList then (if sp.1 then .negInf else .posInf)
  else
    match parseDecCore sp.2 with
    | some (q, _) => .fin (if sp.1 then -q else q)
    | none => .nan

/-- JavaScript falsiness: undefined, null, false, NaN, zero and the empty
string are falsy; every other value (including empty arrays and objects) is
truthy. -/
def jsFalsy : JSVal → Bool
  | .undefined => true
  | .null => true
  | .bool b => !b
  | .num .nan => true
  | .num (.fin q) => decide (q = 0)
  | .num _ => false
  | .str s => decide (s = "")
  | .arr _ => false
  | .obj _ => false

/-- Array.isArray. -/
def isArrayV : JSVal → Bool
  | .arr _ => true
  | _ => false

/-- The length of an array value (only consulted after Array.isArray). -/
def arrayLen : JSVal → Nat
  | .arr xs => xs.length
  | _ => 0

/-- Indexing an array at length - 1, as in xs[xs.length - 1]: undefined for
an empty array. Only reached on arrays in the handler. -/
def arrayLast : JSVal → JSVal
  | .arr xs => xs.getLastD .undefined
  | _ => .undefined

/-- Property lookup on a parsed JSON object, last duplicate key winning as
in JSON.parse; undefined on a missing key or a non-object. -/
def lookupLast : List (String × JSVal) → String → JSVal
  | [], _ => .undefined
  | kv :: rest, k =>
    match lookupLast rest k with
    | .undefined => if kv.1 = k then kv.2 else .undefined
    | v => v

/-- Property access parsed.key on a JSON.parse result. -/
def getProp (v : JSVal) (k : String) : JSVal :=
  match v with
  | .obj fs => lookupLast fs k
  | _ => .undefined

/-- Strict equality of a value against a string literal, as in
risk === "Hypo risk". -/
def jsStrictEqStr (v : JSVal) (s : String) : Bool :=
  match v with
  | .str t => decide (t = s)
  | _ => false

/-- JSON whitespace (space, tab, line feed, carriage return). -/
def isJsonWs (c : Char) : Bool :=
  [9, 10, 13, 32].contains c.toNat

/-- Drop leading JSON whitespace. -/
def skipJsonWs (cs : List Char) : List Char := cs.dropWhile isJsonWs

/-- Decode a two-character JSON string escape. -/
def escChar (c : Char) : Option Char :=
  if c = '"' then some '"'
  else if c = '\\' then some '\\'
  else if c = '/' then some '/'
  else if c = 'b' then some (Char.ofNat 8)
  else if c = 'f' then some (Char.ofNat 12)
  else if c = 'n' then some (Char.ofNat 10)
  else if c = 'r' then some (Char.ofNat 13)
  else if c = 't' then some (Char.ofNat 9)
  else none

/-- Parse the body of a JSON string (after the opening quote), returning its
characters and the rest of the input after the closing quote. As in the JSON
grammar enforced by JSON.parse, an unescaped control character (code point
below 32) inside the string is a parse error. -/
def parseJsonStringChars : List Char → Option (List Char × List Char)
  | [] => none
  | c :: rest =>
    if c = '"' then some ([], rest)
    else if c = '\\' then
      match rest with
      | [] => none
      | e :: rest2 =>
        if e = 'u' then
          match rest2 with
          | h1 :: h2 :: h3 :: h4 :: rest3 =>
            match hexVal h1, hexVal h2, hexVal h3, hexVal h4 with
            | some a, some b, some c2, some d =>
              match parseJsonStringChars rest3 with
              | some (out, r) => some (Char.ofNat (((a * 16 + b) * 16 + c2) * 16 + d) :: out, r)
              | none => none
            | _, _, _, _ => none
          | _ => none
        else
          match escChar e with
          | some ec =>
            match parseJsonStringChars rest2 with
            | some (out, r) => some (ec :: out, r)
            | none => none
          | none => none
    else if c.toNat < 32 then none
    else
      match parseJsonStringChars rest with
      | some (out, r) => some (c :: out, r)
      | none => none

/-- Parse the fraction and exponent part of a strict JSON number whose
integer part has already been read. -/
def parseJsonFracExp (ip : Nat) (cs : List Char) : Option (ℚ × List Char) :=
  let fracRes : Option (ℚ × List Char) :=
    match cs with
    | c :: rest =>
      if c = '.' then
        let p := takeDigits rest
        if p.1.isEmpty then none
        else some ((ip : ℚ) + (digitsToNat p.1 : ℚ) / (10 : ℚ) ^ p.1.length, p.2)
      else some ((ip : ℚ), cs)
    | [] => some ((ip : ℚ), cs)
  match fracRes with
  | none => none
  | some (m, cs2) =>
    match cs2 with
    | c :: rest =>
      if c = 'e' ∨ c = 'E' then
        let sp2 : Bool × List Char :=
          match rest with
          | s :: r3 => if s = '+' then (false, r3) else if s = '-' then (true, r3) else (false, rest)
          | [] => (false, rest)
        let p := takeDigits sp2.2
        if p.1.isEmpty then none
        else
          let e := digitsToNat p.1
          some (if sp2.1 then m / (10 : ℚ) ^ e else m * (10 : ℚ) ^ e, p.2)
      else some (m, cs2)
    | [] => some (m, cs2)

/-- Parse a strict JSON number (optional minus, no leading zeros, mandatory
digits after a decimal point or exponent marker). -/
def parseJsonNumber (cs : List Char) : Option (ℚ × List Char) :=
  let sp : Bool × List Char :=
    match cs with
    | c :: rest => if c = '-' then (true, rest) else (false, cs)
    | [] => (false, cs)
  match sp.2 with
  | [] => none
  | c :: rest =>
    if c = '0' then
      match parseJsonFracExp 0 rest with
      | some (q, r) => some (if sp.1 then -q else q, r)
      | none => none
    else if c.isDigit then
      let p := takeDigits (c :: rest)
      match parseJsonFracExp (digitsToNat p.1) p.2 with
      | some (q, r) => some (if sp.1 then -q else q, r)
      | none => none
    else none

mutual

/-- Parse a JSON value, with fuel. -/
def pJsonVal : Nat → List Char → Option (JSVal × List Char)
  | 0, _ => none
  | Nat.succ fuel, cs =>
    match skipJsonWs cs with
    | [] => none
    | c :: rest =>
      if c = 't' then
        if listStartsWith (c :: rest) "true".toList then some (.bool true, (c :: rest).drop 4)
        else none
      else if c = 'f' then
        if listStartsWith (c :: rest) "false".toList then some (.bool false, (c :: rest).drop 5)
        else none
      else if c = 'n' then
        if listStartsWith (c :: rest) "null".toList then some (.null, (c :: rest).drop 4)
        else none
      else if c = '"' then
        match parseJsonStringChars rest with
        | some (out, r) => some (.str (String.mk out), r)
        | none => none
      else if c = '[' then
        match skipJsonWs rest with
        | d :: rest2 =>
          if d = ']' then some (.arr [], rest2)
          else
            match pJsonItems fuel rest with
            | some (xs, r) => some (.arr xs, r)
            | none => none
        | [] => none
      else if c = Char.ofNat 123 then
        match skipJsonWs rest with
        | d :: rest2 =>
          if d = Char.ofNat 125 then some (.obj [], rest2)
          else
            match pJsonMembers fuel rest with
            | some (fs, r) => some (.obj fs, r)
            | none => none
        | [] => none
      else
        match parseJsonNumber (c :: rest) with
        | some (q, r) => some (.num (.fin q), r)
        | none => none

/-- Parse the comma-separated elements of a JSON array up to the closing
bracket. -/
def pJsonItems : Nat → List Char → Option (List JSVal × List Char)
  | 0, _ => none
  | Nat.succ fuel, cs =>
    match pJsonVal fuel cs with
    | none => none
    | some (v, r) =>
      match skipJsonWs r with
      | c :: rest =>
        if c = ',' then
          match pJsonItems fuel rest with
          | some (xs, r2) => some (v :: xs, r2)
          | none => none
        else if c = ']' then some ([v], rest)
        else none
      | [] => none

/-- Parse the comma-separated members of a JSON object up to the closing
brace. -/
def pJsonMembers : Nat → List Char → Option (List (String × JSVal) × List Char)
  | 0, _ => none
  | Nat.succ fuel, cs =>
    match skipJsonWs cs with
    | c :: rest =>
      if c = '"' then
        match parseJsonStringChars rest with
        | some (key, r) =>
          match skipJsonWs r with
          | d :: r2 =>
            if d = ':' then
              match pJsonVal fuel r2 with
              | some (v, r3) =>
                match skipJsonWs r3 with
                | e :: r4 =>
                  if e = ',' then
                    match pJsonMembers fuel r4 with
                    | some (fs, r5) => some ((String.mk key, v) :: fs, r5)
                    | none => none
                  else if e = Char.ofNat 125 then some ([(String.mk key, v)], r4)
                  else none
                | [] => none
              | none => none
            else none
          | [] => none
        | none => none
      else none
    | [] => none

end

/-- JSON.parse: succeeds exactly when the whole input is one valid JSON
value (modulo surrounding whitespace). -/
def jsonParse (s : String) : Option JSVal :=
  let cs := s.toList
  match pJsonVal (2 * cs.length + 4) cs with
  | some (v, r) => if (skipJsonWs r).isEmpty then some v else none
  | none => none

/-- String.prototype.indexOf for a single character, minus one when
absent. -/
def idxOfCharAux : List Char → Char → Int → Int
  | [], _, _ => -1
  | c :: rest, t, i => if c = t then i else idxOfCharAux rest t (i + 1)

/-- Index of the first occurrence of a character, minus one when absent. -/
def idxOfChar (cs : List Char) (t : Char) : Int := idxOfCharAux cs t 0

/-- String.prototype.lastIndexOf for a single character. -/
def lastIdxOfChar (cs : List Char) (t : Char) : Int :=
  let r := idxOfChar cs.reverse t
  if r < 0 then -1 else (cs.length : Int) - 1 - r

/-- String.prototype.slice with the JavaScript treatment of negative and
out-of-range indices. -/
def jsSliceChars (cs : List Char) (start stop : Int) : List Char :=
  let len : Int := cs.length
  let rel : Int → Int := fun a => if a < 0 then max (len + a) 0 else min a len
  let f := rel start
  let t := rel stop
  if f < t then (cs.drop f.toNat).take (t - f).toNat else []

/-- The substring handed to JSON.parse by the predictive handler:
text.slice(text.indexOf of the first opening brace, text.lastIndexOf of the
last closing brace + 1). -/
def jsExtract (text : String) : String :=
  let cs := text.toList
  let jsonStart := idxOfChar cs (Char.ofNat 123)
  let jsonEnd := lastIdxOfChar cs (Char.ofNat 125)
  String.mk (jsSliceChars cs jsonStart (jsonEnd + 1))

/-- Outcome of a POST /forecast request. The badRequest and serverError
constructors carry the error field of the JSON error body. -/
inductive ForecastOutcome where
  | badRequest (error : String)
  | serverError (error : String)
  | ok (forecast : JSNum)
deriving DecidableEq

/-- HTTP status of a forecast outcome. -/
def ForecastOutcome.status : ForecastOutcome → Nat
  | .badRequest _ => 400
  | .serverError _ => 500
  | .ok _ => 200

/-- Result of running the forecast handler: the response plus the number of
completion-provider calls issued. -/
structure ForecastResult where
  outcome : ForecastOutcome
  providerCalls : Nat
deriving DecidableEq

/-- The plausibility test applied to the parsed provider forecast, from the
source: not NaN, above 40 and below 400. -/
def keepForecast (f : JSNum) : Bool :=
  decide (f ≠ JSNum.nan) && jsNumLt (JSNum.fin 40) f && jsNumLt f (JSNum.fin 400)

/-- The POST /forecast handler. Validation rejects a falsy or non-numeric
currentGlucose with 400 before any provider call. Otherwise the provider is
called once; a thrown provider error is caught as 500; on success the
trimmed response text is parsed with parseFloat and kept when plausible,
otherwise the handler answers currentGlucose plus the floor of
rand times 10 minus 5, where rand is the Math.random draw. -/
def forecastHandler (currentGlucose : JSVal) (provider : Except Unit String) (rand : ℚ) :
    ForecastResult :=
  if jsFalsy currentGlucose || decide (toNumber currentGlucose = JSNum.nan) then
    ⟨.badRequest "Invalid glucose value", 0⟩
  else
    match provider with
    | .error _ => ⟨.serverError "Forecast failed", 1⟩
    | .ok content =>
      let forecastRaw := jsTrim content
      let forecast := jsParseFloat forecastRaw
      let safeForecast :=
        if keepForecast forecast then forecast
        else
          jsNumAdd (toNumber currentGlucose)
            (jsNumFloor (jsNumSub (jsNumMul (JSNum.fin rand) (JSNum.fin 10)) (JSNum.fin 5)))
      ⟨.ok safeForecast, 1⟩

/-- The condition insulinType?.toLowerCase().includes(pat): false on a
nullish receiver via optional chaining, the substring test on a string, and
a TypeError (modelled as the error case) on any other value, whose
toLowerCase is undefined. -/
def optLowerIncludes (v : JSVal) (pat : String) : Except Unit Bool :=
  match v with
  | .undefined => .ok false
  | .null => .ok false
  | .str s => .ok (strContains (jsToLower s) pat)
  | _ => .error ()

/-- The adjustment accumulation of the predictive handler, line for line:
subtract insulinUnits times 3 on a fast insulin type, subtract insulinUnits
times 1.5 on a long insulin type, add 15 when calories exceed 400, subtract
10 on a walk or run activity. All arithmetic is JavaScript number
arithmetic, so a missing insulinUnits turns the adjustment into NaN. The
error case is the TypeError thrown by toLowerCase access on a non-string,
non-nullish insulinType or activity. -/
def adjustmentOf (insulinType insulinUnits calories activity : JSVal) : Except Unit JSNum :=
  match optLowerIncludes insulinType "fast" with
  | .error e => .error e
  | .ok fast =>
    match optLowerIncludes insulinType "long" with
    | .error e => .error e
    | .ok long =>
      match
        ((match optLowerIncludes activity "walk" with
          | .error e => .error e
          | .ok true => .ok true
          | .ok false => optLowerIncludes activity "run") : Except Unit Bool) with
      | .error e => .error e
      | .ok walkRun =>
        let a0 : JSNum := .fin 0
        let a1 := if fast then jsNumSub a0 (jsNumMul (toNumber insulinUnits) (.fin 3)) else a0
        let a2 := if long then jsNumSub a1 (jsNumMul (toNumber insulinUnits) (.fin (3 / 2))) else a1
        let a3 := if jsNumLt (.fin 400) (toNumber calories) then jsNumAdd a2 (.fin 15) else a2
        .ok (if walkRun then jsNumSub a3 (.fin 10) else a3)

/-- JavaScript addition of a value and a number, as in
latestGlucose + adjustment: string receivers concatenate, everything else
goes through ToNumber. -/
def jsAddNumVal (x : JSVal) (a : JSNum) : JSVal :=
  match x with
  | .num n => .num (jsNumAdd n a)
  | .str s => .str (s ++ jsNumToString a)
  | .bool b => .num (jsNumAdd (.fin (if b then 1 else 0)) a)
  | .null => .num (jsNumAdd (.fin 0) a)
  | .undefined => .num .nan
  | .arr xs => .str (jsValToString (.arr xs) ++ jsNumToString a)
  | .obj fs => .str (jsValToString (.obj fs) ++ jsNumToString a)

/-- The bounded local baseline of the predictive handler:
Math.max(60, Math.min(approxForecast, 250)), with Math converting its
arguments through ToNumber. -/
def boundedForecastOf (approx : JSVal) : JSNum :=
  jsNumMax (.fin 60) (jsNumMin (toNumber approx) (.fin 250))

/-- The risk derivation used when the parsed risk_type is falsy: below 100
is Hypo risk, above 150 is Hyper risk, otherwise Stable. The comparisons are
JavaScript comparisons on the (substituted) forecast_mgdl value. -/
def deriveRisk (fm : JSVal) : String :=
  if jsNumLt (toNumber fm) (.fin 100) then "Hypo risk"
  else if jsNumLt (.fin 150) (toNumber fm) then "Hyper risk"
  else "Stable"

/-- The risk_type selection of the predictive handler: keep a truthy parsed
risk_type, otherwise derive it from forecast_mgdl. -/
def riskTypeOf (r0 fm : JSVal) : JSVal :=
  if jsFalsy r0 then .str (deriveRisk fm) else r0

/-- The presentation record keyed on the risk category. -/
structure MainAlert where
  type : String
  message : String
  color : String
deriving DecidableEq

/-- The static risk-to-alert mapping of the predictive handler, selected by
strict string equality on the risk value. -/
def mainAlertOf (risk : JSVal) : MainAlert :=
  if jsStrictEqStr risk "Hypo risk" then
    ⟨"Predictive Alert!",
     "Risk of Hypoglycemia forecasted. Check your BG and take necessary actions (consume fast-acting carbs).",
     "#e74c3c"⟩
  else if jsStrictEqStr risk "Hyper risk" then
    ⟨"Warning!",
     "Risk of Hyperglycemia forecasted. Consider monitoring and adjusting insulin if advised.",
     "#f1c40f"⟩
  else
    ⟨"Stable", "No immediate risk detected. Continue monitoring as usual.", "#2ecc71"⟩

/-- Truncation toward zero, as in ToIntegerOrInfinity. -/
def ratTrunc (q : ℚ) : ℤ := if 0 ≤ q then ⌊q⌋ else ⌈q⌉

/-- Zero-padded two-digit decimal. -/
def pad2 (n : Nat) : String := if n < 10 then "0" ++ Nat.repr n else Nat.repr n

/-- The first five characters of Date.prototype.toTimeString for a valid
date: hours and minutes, zero padded. Local time is modelled as UTC. -/
def timeHHMM (ms : ℤ) : String :=
  pad2 ((Int.fdiv ms 3600000) % 24).toNat ++ ":" ++ pad2 ((Int.fdiv ms 60000) % 60).toNat

/-- alertTime.toTimeString().slice(0, 5): an invalid date (NaN or more than
8.64e15 milliseconds from the epoch, per TimeClip) prints as Invalid Date,
of which the first five characters are Inval. -/
def timeStringOf (n : JSNum) : String :=
  match n with
  | .fin t => if |t| ≤ 8640000000000000 then timeHHMM (ratTrunc t) else "Inval"
  | _ => "Inval"

/-- The 200-response body of the predictive handler: the (possibly
substituted) forecast_mgdl, the main alert, the single alert-list entry and
the local baseline. -/
structure PredictOk where
  forecast_mgdl : JSVal
  main_alert : MainAlert
  alert_risk : JSVal
  alert_in_minutes : JSVal
  alert_time : String
  baseline : JSNum

/-- Outcome of a POST /predict request. typeError is the TypeError escaping
the handler before the try block (no response is sent). -/
inductive PredictOutcome where
  | badRequest (error : String)
  | typeError
  | serverError (error : String)
  | ok (resp : PredictOk)

/-- HTTP status of a predict outcome (none when the TypeError escapes and no
response is produced). -/
def PredictOutcome.status : PredictOutcome → Option Nat
  | .badRequest _ => some 400
  | .typeError => none
  | .serverError _ => some 500
  | .ok _ => some 200

/-- Result of running the predictive handler. -/
structure PredictResult where
  outcome : PredictOutcome
  providerCalls : Nat

/-- The POST /predict handler. Validation rejects a falsy, non-array or
empty glucoseHistory with 400 before any provider call. The local baseline
is computed next (outside the try block, so a TypeError there escapes
uncaught). The provider is then called once; a provider error or a failed
JSON extraction is caught as 500. On a parsed object, a non-numeric
forecast_mgdl is replaced by the baseline, a falsy risk_type is derived by
threshold, and the alert time is built from now plus forecast_minutes
minutes. -/
def predictHandler (glucoseHistory insulinType insulinUnits calories activity : JSVal)
    (provider : Except Unit String) (nowMs : ℤ) : PredictResult :=
  if jsFalsy glucoseHistory || !isArrayV glucoseHistory || decide (arrayLen glucoseHistory = 0) then
    ⟨.badRequest "Glucose history is required", 0⟩
  else
    let latestGlucose := arrayLast glucoseHistory
    match adjustmentOf insulinType insulinUnits calories activity with
    | .error _ => ⟨.typeError, 0⟩
    | .ok adjustment =>
      let approxForecast := jsAddNumVal latestGlucose adjustment
      let boundedForecast := boundedForecastOf approxForecast
      match provider with
      | .error _ => ⟨.serverError "Prediction failed", 1⟩
      | .ok text =>
        match jsonParse (jsExtract text) with
        | none => ⟨.serverError "Prediction failed", 1⟩
        | some parsed =>
          let f0 := getProp parsed "forecast_mgdl"
          let fm := if toNumber f0 = JSNum.nan then JSVal.num boundedForecast else f0
          let risk := riskTypeOf (getProp parsed "risk_type") fm
          let mins := getProp parsed "forecast_minutes"
          let alertMs := jsNumAdd (.fin (nowMs : ℚ)) (jsNumMul (toNumber mins) (.fin 60000))
          ⟨.ok
            { forecast_mgdl := fm
              main_alert := mainAlertOf risk
              alert_risk := risk
              alert_in_minutes := mins
              alert_time := timeStringOf alertMs
              baseline := boundedForecast }, 1⟩

/-- Outcome of a POST /summarize request, whose error bodies use a message
field. -/
inductive SummarizeOutcome where
  | badRequest (message : String)
  | serverError (message : String)
  | ok (summary : String)
deriving DecidableEq

/-- HTTP status of a summarize outcome. -/
def SummarizeOutcome.status : SummarizeOutcome → Nat
  | .badRequest _ => 400
  | .serverError _ => 500
  | .ok _ => 200

/-- Result of running the summary handler. -/
structure SummarizeResult where
  outcome : SummarizeOutcome
  providerCalls : Nat
deriving DecidableEq

/-- The POST /summarize handler: a falsy values field is rejected with 400
before any provider call; otherwise the provider is called once and its
response text is relayed trimmed, with provider errors caught as 500. -/
def summarizeHandler (values : JSVal) (provider : Except Unit String) : SummarizeResult :=
  if jsFalsy values then ⟨.badRequest "No values provided", 0⟩
  else
    match provider with
    | .error _ => ⟨.serverError "Error generating summary", 1⟩
    | .ok content => ⟨.ok (jsTrim content), 1⟩

/-- The baseline field of a successful predict response. -/
def predictBaselineOf (r : PredictResult) : Option JSNum :=
  match r.outcome with
  | .ok resp => some resp.baseline
  | _ => none

/-- The alerts[0].in_minutes field of a successful predict response. -/
def predictInMinutesOf (r : PredictResult) : Option JSVal :=
  match r.outcome with
  | .ok resp => some resp.alert_in_minutes
  | _ => none

/-- The alerts[0].time field of a successful predict response. -/
def predictAlertTimeOf (r : PredictResult) : Option String :=
  match r.outcome with
  | .ok resp => some resp.alert_time
  | _ => none

/-- The forecast_mgdl field of a successful predict response. -/
def predictForecastOf (r : PredictResult) : Option JSVal :=
  match r.outcome with
  | .ok resp => some resp.forecast_mgdl
  | _ => none

/-- Steps 2 through 6 of the deterministic baseline algorithm as the spec
states them, over the typed contract of the spec (string insulin type and
activity, numeric insulin units and calories): start the adjustment at 0,
subtract insulinUnits times 3 on a fast insulin type, additionally subtract
insulinUnits times 1.5 on a long insulin type, add 15 when calories exceed
400, subtract 10 on a walk or run activity, all matched case
insensitively. Stated separately from the handler to compare the two. -/
def specAdjustment (insulinType : String) (insulinUnits calories : ℚ) (activity : String) : ℚ :=
  let a0 : ℚ := 0
  let a1 := if strContains (jsToLower insulinType) "fast" then a0 - insulinUnits * 3 else a0
  let a2 := if strContains (jsToLower insulinType) "long" then a1 - insulinUnits * (3 / 2) else a1
  let a3 := if 400 < calories then a2 + 15 else a2
  if strContains (jsToLower activity) "walk" || strContains (jsToLower activity) "run" then
    a3 - 10
  else a3

/-- Steps 1, 7 and 8 of the spec algorithm: the latest reading plus the
adjustment, clamped to the closed interval from 60 to 250. -/
def specBaseline (latest : ℚ) (insulinType : String) (insulinUnits calories : ℚ)
    (activity : String) : ℚ :=
  max 60 (min (latest + specAdjustment insulinType insulinUnits calories activity) 250)

theorem jsNumAdd_fin (a b : ℚ) : jsNumAdd (.fin a) (.fin b) = .fin (a + b) := rfl

theorem jsNumMul_fin (a b : ℚ) : jsNumMul (.fin a) (.fin b) = .fin (a * b) := rfl

theorem jsNumSub_fin (a b : ℚ) : jsNumSub (.fin a) (.fin b) = .fin (a - b) := by
  simp [jsNumSub, jsNumNeg, jsNumAdd, sub_eq_add_neg]

theorem jsNumLt_fin (a b : ℚ) : jsNumLt (.fin a) (.fin b) = decide (a < b) := rfl

theorem jsNumMin_fin (a b : ℚ) : jsNumMin (.fin a) (.fin b) = .fin (min a b) := by
  simp only [jsNumMin, jsNumLt]
  rw [if_neg (by simp)]
  by_cases h : a < b
  · simp [h, min_eq_left h.le]
  · simp [h, min_eq_right (le_of_not_lt h)]

theorem jsNumMax_fin (a b : ℚ) : jsNumMax (.fin a) (.fin b) = .fin (max a b) := by
  simp only [jsNumMax, jsNumLt]
  rw [if_neg (by simp)]
  by_cases h : a < b
  · simp [h, max_eq_right h.le]
  · simp [h, max_eq_left (le_of_not_lt h)]

/-- The plausibility test fails exactly on the unparsable and out-of-window
cases the spec describes. -/
theorem keepForecast_false_of (f : JSNum)
    (h : ∀ q : ℚ, f = .fin q → 40 < q → q < 400 → False) :
    keepForecast f = false := by
  cases f with
  | nan => rfl
  | posInf => rfl
  | negInf => rfl
  | fin q =>
    have hq := h q rfl
    simp only [keepForecast, jsNumLt, Bool.and_eq_false_iff]
    by_cases h40 : (40 : ℚ) < q
    · exact Or.inr (by simpa using fun h400 => hq h40 h400)
    · exact Or.inl (Or.inr (by simpa using h40))

/-- Whenever the approximate forecast converts to an actual number (or an
infinity), the clamp produces a finite baseline within the closed interval
from 60 to 250. -/
theorem boundedForecast_in_range (v : JSVal) (h : toNumber v ≠ JSNum.nan) :
    ∃ q : ℚ, boundedForecastOf v = .fin q ∧ 60 ≤ q ∧ q ≤ 250 := by
  unfold boundedForecastOf
  cases hv : toNumber v with
  | nan => exact absurd hv h
  | posInf => exact ⟨250, by decide, by norm_num, le_refl _⟩
  | negInf => exact ⟨60, by decide, le_refl _, by norm_num⟩
  | fin q =>
    refine ⟨max 60 (min q 250), ?_, le_max_left _ _, max_le (by norm_num) (min_le_right _ _)⟩
    rw [jsNumMin_fin, jsNumMax_fin]

/-- C1: on the typed inputs of the spec contract, the predictive handler
computes its adjustment and clamped baseline exactly as the numbered spec
algorithm prescribes (both insulin rules may fire on one string); in
particular, for glucoseHistory [120], insulinType fast-acting, insulinUnits
4, calories 500 and activity walking, the adjustment is -7 and the baseline
of the successful response is 113. -/
theorem predict_baseline_matches_spec :
    (∀ (latest : ℚ) (it : String) (iu cal : ℚ) (act : String),
      adjustmentOf (.str it) (.num (.fin iu)) (.num (.fin cal)) (.str act)
        = .ok (.fin (specAdjustment it iu cal act)) ∧
      boundedForecastOf (jsAddNumVal (.num (.fin latest)) (.fin (specAdjustment it iu cal act)))
        = .fin (specBaseline latest it iu cal act)) ∧
    specAdjustment "fast-acting" 4 500 "walking" = -7 ∧
    adjustmentOf (.str "fast-acting") (.num (.fin 4)) (.num (.fin 500)) (.str "walking")
      = .ok (.fin (-7)) ∧
    boundedForecastOf (jsAddNumVal (.num (.fin 120)) (.fin (-7))) = .fin 113 ∧
    predictBaselineOf (predictHandler (.arr [.num (.fin 120)]) (.str "fast-acting")
        (.num (.fin 4)) (.num (.fin 500)) (.str "walking")
        (.ok "\x7b\"forecast_mgdl\":110,\"risk_type\":\"Stable\",\"forecast_minutes\":30\x7d") 0)
      = some (.fin 113) := by
  refine ⟨?_, by with_unfolding_all decide, ?_, ?_, ?_⟩
  · intro latest it iu cal act
    constructor
    · simp only [adjustmentOf, optLowerIncludes, specAdjustment, toNumber]
      cases hf : strContains (jsToLower it) "fast" <;>
        cases hl : strContains (jsToLower it) "long" <;>
          cases hw : strContains (jsToLower act) "walk" <;>
            cases hr : strContains (jsToLower act) "run" <;>
              simp [hf, hl, hw, hr, jsNumLt_fin] <;>
                split_ifs <;>
                  simp [jsNumSub_fin, jsNumMul_fin, jsNumAdd_fin]
    · simp only [jsAddNumVal, jsNumAdd, toNumber, boundedForecastOf, jsNumMin_fin, jsNumMax_fin,
        specBaseline]
  · with_unfolding_all rfl
  · with_unfolding_all rfl
  · with_unfolding_all rfl

/-- C2: whenever the parsed risk_type is absent (undefined, hence falsy),
the predictive handler derives the category from forecast_mgdl by the
threshold rule, below 100 Hypo risk, above 150 Hyper risk, otherwise Stable
with both boundaries inclusive; in particular 95 gives Hypo risk, 150 gives
Stable and 151 gives Hyper risk. -/
theorem predict_risk_derivation :
    (∀ q : ℚ,
      riskTypeOf JSVal.undefined (.num (.fin q)) =
        .str (if q < 100 then "Hypo risk" else if 150 < q then "Hyper risk" else "Stable")) ∧
    riskTypeOf JSVal.undefined (.num (.fin 95)) = .str "Hypo risk" ∧
    riskTypeOf JSVal.undefined (.num (.fin 100)) = .str "Stable" ∧
    riskTypeOf JSVal.undefined (.num (.fin 150)) = .str "Stable" ∧
    riskTypeOf JSVal.undefined (.num (.fin 151)) = .str "Hyper risk" := by
  refine ⟨?_, by with_unfolding_all rfl, by with_unfolding_all rfl, by with_unfolding_all rfl,
    by with_unfolding_all rfl⟩
  intro q
  simp only [riskTypeOf, jsFalsy, deriveRisk, toNumber, jsNumLt, if_true]
  split_ifs <;> simp_all

theorem jsNumFloor_fin (q : ℚ) : jsNumFloor (.fin q) = .fin ((⌊q⌋ : ℤ) : ℚ) := rfl

/-- C3: for a numeric currentGlucose that passes validation, whenever the
trimmed provider text is unparsable as a float or parses to a number outside
the exclusive window from 40 to 400, the forecast is currentGlucose plus the
floor of rand times 10 minus 5, an integer between -5 and 4 inclusive, for
every random draw rand in the unit interval; hence the output lies in the
closed interval from currentGlucose - 5 to currentGlucose + 4. -/
theorem forecast_fallback_range (g rand : ℚ) (t : String)
    (hg : jsFalsy (.num (.fin g)) = false)
    (hr0 : 0 ≤ rand) (hr1 : rand < 1)
    (hp : ∀ q : ℚ, jsParseFloat (jsTrim t) = .fin q → 40 < q → q < 400 → False) :
    ∃ k : ℤ, -5 ≤ k ∧ k ≤ 4 ∧
      forecastHandler (.num (.fin g)) (.ok t) rand = ⟨.ok (.fin (g + (k : ℚ))), 1⟩ ∧
      g - 5 ≤ g + (k : ℚ) ∧ g + (k : ℚ) ≤ g + 4 := by
  have hkeep : keepForecast (jsParseFloat (jsTrim t)) = false := keepForecast_false_of _ hp
  have hk1 : (-5 : ℤ) ≤ ⌊rand * 10 - 5⌋ := Int.le_floor.mpr (by push_cast; linarith)
  have hk2 : ⌊rand * 10 - 5⌋ ≤ 4 := by
    have h5 : ⌊rand * 10 - 5⌋ < 5 := Int.floor_lt.mpr (by push_cast; linarith)
    omega
  have hq1 : (-5 : ℚ) ≤ ((⌊rand * 10 - 5⌋ : ℤ) : ℚ) := by exact_mod_cast hk1
  have hq2 : ((⌊rand * 10 - 5⌋ : ℤ) : ℚ) ≤ 4 := by exact_mod_cast hk2
  refine ⟨⌊rand * 10 - 5⌋, hk1, hk2, ?_, by linarith, by linarith⟩
  simp [forecastHandler, hg, toNumber, hkeep, jsNumMul_fin, jsNumSub_fin, jsNumFloor_fin,
    jsNumAdd_fin]

/-- Witness for C3 at currentGlucose 100, random draw one half and the
unparsable provider text: the handler falls back within range. -/
theorem forecast_fallback_range_witness :
    ∃ k : ℤ, -5 ≤ k ∧ k ≤ 4 ∧
      forecastHandler (.num (.fin 100)) (.ok "not a number") (1 / 2)
        = ⟨.ok (.fin (100 + (k : ℚ))), 1⟩ ∧
      (100 : ℚ) - 5 ≤ 100 + (k : ℚ) ∧ 100 + (k : ℚ) ≤ 100 + 4 :=
  forecast_fallback_range 100 (1 / 2) "not a number" (by with_unfolding_all decide)
    (by norm_num) (by norm_num)
    (fun q hq _ _ => by
      rw [show jsParseFloat (jsTrim "not a number") = JSNum.nan from by with_unfolding_all rfl]
        at hq
      exact JSNum.noConfusion hq)

/-- C6: for a numeric currentGlucose that passes validation, whenever the
trimmed provider text parses to a number strictly between 40 and 400, the
handler returns exactly that number, unchanged. -/
theorem forecast_passthrough (g rand : ℚ) (t : String) (q : ℚ)
    (hg : jsFalsy (.num (.fin g)) = false)
    (hp : jsParseFloat (jsTrim t) = .fin q) (h40 : 40 < q) (h400 : q < 400) :
    forecastHandler (.num (.fin g)) (.ok t) rand = ⟨.ok (.fin q), 1⟩ := by
  have hkeep : keepForecast (JSNum.fin q) = true := by
    simp [keepForecast, jsNumLt, h40, h400]
  simp [forecastHandler, hg, toNumber, hp, hkeep]

/-- Witness for C6: 120.5 parsed from the provider text is passed through
verbatim. -/
theorem forecast_passthrough_witness :
    forecastHandler (.num (.fin 100)) (.ok " 120.5 mg/dL") 0 = ⟨.ok (.fin (241 / 2)), 1⟩ :=
  forecast_passthrough 100 0 " 120.5 mg/dL" (241 / 2) (by with_unfolding_all decide)
    (by with_unfolding_all decide) (by norm_num) (by norm_num)

/-- C7: whenever currentGlucose is absent or not numeric (its ToNumber is
NaN), the forecast handler responds 400 with the error body and issues no
provider call. -/
theorem forecast_validation_400 (cg : JSVal) (provider : Except Unit String) (rand : ℚ)
    (h : cg = JSVal.undefined ∨ toNumber cg = JSNum.nan) :
    forecastHandler cg provider rand = ⟨.badRequest "Invalid glucose value", 0⟩ ∧
    (forecastHandler cg provider rand).outcome.status = 400 ∧
    (forecastHandler cg provider rand).providerCalls = 0 := by
  have hc : (jsFalsy cg || decide (toNumber cg = JSNum.nan)) = true := by
    rcases h with h | h
    · subst h; rfl
    · simp [h]
  have he : forecastHandler cg provider rand = ⟨.badRequest "Invalid glucose value", 0⟩ := by
    simp [forecastHandler, hc]
  exact ⟨he, by rw [he]; rfl, by rw [he]⟩

/-- Witness for C7 at the non-numeric string abc. -/
theorem forecast_validation_400_witness :
    forecastHandler (.str "abc") (.ok "120") 0 = ⟨.badRequest "Invalid glucose value", 0⟩ ∧
    (forecastHandler (.str "abc") (.ok "120") 0).outcome.status = 400 ∧
    (forecastHandler (.str "abc") (.ok "120") 0).providerCalls = 0 :=
  forecast_validation_400 (.str "abc") (.ok "120") 0 (Or.inr (by with_unfolding_all decide))

/-- C10: the numeric input 0 is falsy, so the forecast handler rejects it
with 400 and never calls the provider; likewise the empty string and
false. -/
theorem forecast_falsy_zero_400 :
    forecastHandler (.num (.fin 0)) (.ok "120") 0 = ⟨.badRequest "Invalid glucose value", 0⟩ ∧
    forecastHandler (.str "") (.ok "120") 0 = ⟨.badRequest "Invalid glucose value", 0⟩ ∧
    forecastHandler (.bool false) (.ok "120") 0 = ⟨.badRequest "Invalid glucose value", 0⟩ := by
  exact ⟨by with_unfolding_all decide, by with_unfolding_all decide,
    by with_unfolding_all decide⟩

/-- C8: whenever glucoseHistory is absent, not an array, or the empty array,
the predictive handler responds 400 with the error body and the provider is
never invoked. -/
theorem predict_validation_400 (gh it iu cal act : JSVal) (provider : Except Unit String)
    (now : ℤ) (h : gh = JSVal.undefined ∨ isArrayV gh = false ∨ gh = JSVal.arr []) :
    predictHandler gh it iu cal act provider now
      = ⟨.badRequest "Glucose history is required", 0⟩ ∧
    (predictHandler gh it iu cal act provider now).outcome.status = some 400 ∧
    (predictHandler gh it iu cal act provider now).providerCalls = 0 := by
  have hc : (jsFalsy gh || !isArrayV gh || decide (arrayLen gh = 0)) = true := by
    rcases h with h | h | h
    · subst h; rfl
    · simp [h]
    · subst h; rfl
  have he : predictHandler gh it iu cal act provider now
      = ⟨.badRequest "Glucose history is required", 0⟩ := by
    simp [predictHandler, hc]
  exact ⟨he, by rw [he]; rfl, by rw [he]⟩

/-- Witness for C8 at a non-array glucoseHistory. -/
theorem predict_validation_400_witness :
    predictHandler (.num (.fin 5)) .undefined .undefined .undefined .undefined (.ok "x") 0
      = ⟨.badRequest "Glucose history is required", 0⟩ ∧
    (predictHandler (.num (.fin 5)) .undefined .undefined .undefined .undefined (.ok "x") 0).outcome.status
      = some 400 ∧
    (predictHandler (.num (.fin 5)) .undefined .undefined .undefined .undefined (.ok "x") 0).providerCalls
      = 0 :=
  predict_validation_400 (.num (.fin 5)) .undefined .undefined .undefined .undefined (.ok "x") 0
    (Or.inr (Or.inl rfl))

/-- C4 fails on the code: a request that passes glucoseHistory validation
can produce a successful (200) response whose baseline is NaN, outside any
interval: insulinType fast with insulinUnits absent makes the adjustment
NaN times, which survives the Math.max/Math.min clamp. -/
theorem predict_baseline_range_cex :
    predictBaselineOf (predictHandler (.arr [.num (.fin 120)]) (.str "fast") .undefined .undefined .undefined
        (.ok "\x7b\"forecast_mgdl\":120,\"risk_type\":\"Stable\",\"forecast_minutes\":30\x7d") 0)
      = some JSNum.nan ∧
    (predictHandler (.arr [.num (.fin 120)]) (.str "fast") .undefined .undefined .undefined
        (.ok "\x7b\"forecast_mgdl\":120,\"risk_type\":\"Stable\",\"forecast_minutes\":30\x7d")
        0).outcome.status = some 200 :=
  ⟨by with_unfolding_all rfl, by with_unfolding_all rfl⟩

/-- C4 amended: whenever the computed approximate forecast converts to an
actual number (in particular whenever insulinUnits is numeric when consulted
and the last history entry is numeric), the baseline of a successful
response is a finite value in the closed interval from 60 to 250. -/
theorem predict_baseline_range_amended (gh it iu cal act : JSVal)
    (provider : Except Unit String) (now : ℤ) (adj : JSNum)
    (hadj : adjustmentOf it iu cal act = Except.ok adj)
    (hnn : toNumber (jsAddNumVal (arrayLast gh) adj) ≠ JSNum.nan) :
    ∀ n, predictBaselineOf (predictHandler gh it iu cal act provider now) = some n →
      ∃ q : ℚ, n = .fin q ∧ 60 ≤ q ∧ q ≤ 250 := by
  intro n hn
  by_cases hv : (jsFalsy gh || !isArrayV gh || decide (arrayLen gh = 0)) = true
  · rw [show predictHandler gh it iu cal act provider now
        = ⟨.badRequest "Glucose history is required", 0⟩ from by simp [predictHandler, hv]] at hn
    simp [predictBaselineOf] at hn
  · simp only [Bool.not_eq_true] at hv
    cases provider with
    | error e =>
      rw [show predictHandler gh it iu cal act (.error e) now
          = ⟨.serverError "Prediction failed", 1⟩ from by
        simp [predictHandler, hv, hadj]] at hn
      simp [predictBaselineOf] at hn
    | ok text =>
      cases hparse : jsonParse (jsExtract text) with
      | none =>
        rw [show predictHandler gh it iu cal act (.ok text) now
            = ⟨.serverError "Prediction failed", 1⟩ from by
          simp [predictHandler, hv, hadj, hparse]] at hn
        simp [predictBaselineOf] at hn
      | some parsed =>
        have he : predictBaselineOf (predictHandler gh it iu cal act (.ok text) now)
            = some (boundedForecastOf (jsAddNumVal (arrayLast gh) adj)) := by
          simp [predictHandler, predictBaselineOf, hv, hadj, hparse]
        rw [he, Option.some.injEq] at hn
        obtain ⟨q, hbq, h60, h250⟩ :=
          boundedForecast_in_range (jsAddNumVal (arrayLast gh) adj) hnn
        exact ⟨q, by rw [← hn, hbq], h60, h250⟩

/-- Witness for the amended C4 at the fully numeric spec example, whose
baseline is 113. -/
theorem predict_baseline_range_amended_witness :
    ∃ q : ℚ, JSNum.fin 113 = JSNum.fin q ∧ 60 ≤ q ∧ q ≤ 250 :=
  predict_baseline_range_amended (.arr [.num (.fin 120)]) (.str "fast-acting")
    (.num (.fin 4)) (.num (.fin 500)) (.str "walking")
    (.ok "\x7b\"forecast_mgdl\":110,\"risk_type\":\"Stable\",\"forecast_minutes\":30\x7d") 0
    (.fin (-7)) (by with_unfolding_all rfl) (by with_unfolding_all decide)
    (.fin 113) (by with_unfolding_all rfl)

/-- C5 fails on the code: a provider object without forecast_minutes is
answered with 200, not 500; the in_minutes field stays undefined and the
alert time string is the Inval prefix of Invalid Date. -/
theorem predict_minutes_unchecked_cex :
    (predictHandler (.arr [.num (.fin 120)]) .undefined .undefined .undefined .undefined
        (.ok "\x7b\"forecast_mgdl\":120,\"risk_type\":\"Stable\"\x7d") 0).outcome.status
      = some 200 ∧
    predictInMinutesOf (predictHandler (.arr [.num (.fin 120)]) .undefined .undefined .undefined .undefined
        (.ok "\x7b\"forecast_mgdl\":120,\"risk_type\":\"Stable\"\x7d") 0)
      = some JSVal.undefined ∧
    predictAlertTimeOf (predictHandler (.arr [.num (.fin 120)]) .undefined .undefined .undefined .undefined
        (.ok "\x7b\"forecast_mgdl\":120,\"risk_type\":\"Stable\"\x7d") 0)
      = some "Inval" :=
  ⟨by with_unfolding_all rfl, by with_unfolding_all rfl, by with_unfolding_all rfl⟩

/-- C5 amended: once validation and the adjustment succeed, the predictive
handler answers 500 exactly when the provider call fails or the
first-to-last-brace extraction of the provider text fails to parse as strict
JSON; when it parses, the handler always answers 200 (no numeric check of
forecast_minutes or of the substituted forecast_mgdl is performed
afterwards). -/
theorem predict_parse_error_500_amended (gh it iu cal act : JSVal) (now : ℤ)
    (adj : JSNum)
    (hval : (jsFalsy gh || !isArrayV gh || decide (arrayLen gh = 0)) = false)
    (hadj : adjustmentOf it iu cal act = Except.ok adj) :
    (∀ e : Unit, predictHandler gh it iu cal act (.error e) now
        = ⟨.serverError "Prediction failed", 1⟩) ∧
    (∀ text : String, jsonParse (jsExtract text) = none →
      predictHandler gh it iu cal act (.ok text) now
        = ⟨.serverError "Prediction failed", 1⟩) ∧
    (∀ (text : String) (parsed : JSVal), jsonParse (jsExtract text) = some parsed →
      (predictHandler gh it iu cal act (.ok text) now).outcome.status = some 200 ∧
      (predictHandler gh it iu cal act (.ok text) now).providerCalls = 1) := by
  refine ⟨?_, ?_, ?_⟩
  · intro e
    simp [predictHandler, hval, hadj]
  · intro text hparse
    simp [predictHandler, hval, hadj, hparse]
  · intro text parsed hparse
    refine ⟨?_, ?_⟩ <;>
      simp [predictHandler, hval, hadj, hparse, PredictOutcome.status]

/-- Witness for the amended C5: a failing provider call gives 500, a
provider text without any JSON object gives 500, and a parsable provider
object gives 200. -/
theorem predict_parse_error_500_amended_witness :
    predictHandler (.arr [.num (.fin 120)]) .undefined .undefined .undefined .undefined
        (.error ()) 0
      = ⟨.serverError "Prediction failed", 1⟩ ∧
    predictHandler (.arr [.num (.fin 120)]) .undefined .undefined .undefined .undefined
        (.ok "no json here") 0
      = ⟨.serverError "Prediction failed", 1⟩ ∧
    (predictHandler (.arr [.num (.fin 120)]) .undefined .undefined .undefined .undefined
        (.ok "\x7b\"forecast_mgdl\":88\x7d") 0).outcome.status = some 200 := by
  have h := predict_parse_error_500_amended (.arr [.num (.fin 120)]) .undefined .undefined
    .undefined .undefined 0 (.fin 0) (by with_unfolding_all rfl) (by with_unfolding_all rfl)
  exact ⟨h.1 (), h.2.1 "no json here" (by with_unfolding_all rfl),
    (h.2.2 "\x7b\"forecast_mgdl\":88\x7d" (.obj [("forecast_mgdl", .num (.fin 88))])
      (by with_unfolding_all rfl)).1⟩

/-- C9 fails on the code: a present but falsy values field (here the number
0) is rejected with 400 and no provider call, although the claim promises a
provider call and a relayed summary for every present values. -/
theorem summarize_falsy_values_cex :
    summarizeHandler (.num (.fin 0)) (.ok "summary") = ⟨.badRequest "No values provided", 0⟩ := by
  with_unfolding_all decide

/-- C9 amended: for every truthy values field (including the empty object)
the summary handler calls the provider exactly once and relays the provider
text trimmed; for every falsy or absent values it answers 400 with the
message body. -/
theorem summarize_values_amended (values : JSVal) (provider : Except Unit String) :
    (jsFalsy values = false →
      (summarizeHandler values provider).providerCalls = 1 ∧
      ∀ t, provider = .ok t → summarizeHandler values provider = ⟨.ok (jsTrim t), 1⟩) ∧
    (jsFalsy values = true →
      summarizeHandler values provider = ⟨.badRequest "No values provided", 0⟩) := by
  constructor
  · intro hv
    constructor
    · cases provider <;> simp [summarizeHandler, hv]
    · intro t ht
      subst ht
      simp [summarizeHandler, hv]
  · intro hv
    simp [summarizeHandler, hv]

/-- Witness for the amended C9 at the empty object: one provider call and
the trimmed relay. -/
theorem summarize_values_amended_witness :
    (summarizeHandler (.obj []) (.ok "  hello  ")).providerCalls = 1 ∧
    summarizeHandler (.obj []) (.ok "  hello  ") = ⟨.ok (jsTrim "  hello  "), 1⟩ := by
  have h := summarize_values_amended (.obj []) (.ok "  hello  ")
  exact ⟨(h.1 rfl).1, (h.1 rfl).2 "  hello  " rfl⟩
